import Mathlib

/-!
Shallow embedding of the placeholder-resolution and document-fill engine of
the `glr-pipeline` repository (files `data_mapper.py` and
`template_handler.py`), together with theorems settling the frozen claims
about its specification.

Conventions of the embedding:
* Python `Optional[str]` values become `Option String`; a Python `dict`
  becomes an association list in insertion order (Python dicts iterate in
  insertion order and have unique keys).
* Python string operations (`lower`, `strip`, `in`, `replace`, `split`) are
  re-implemented over `List Char`; the regular expressions of the source are
  translated to explicit character-list matchers with `re.search`
  (existential, leftmost) semantics.
-/

namespace GlrPipeline

/-- The dictionary of extracted fields: field name → value-or-null,
in insertion order (`extracted_data` in `data_mapper.py`). -/
abbrev FieldDict := List (String × Option String)

/-- Python `dict.__contains__` / subscript: first (unique) binding for a key.
`some v` means the key is present with value `v` (which may itself be the
Python `None`, i.e. `Option.none`). -/
def pyDictGet (d : FieldDict) (k : String) : Option (Option String) :=
  (d.find? (fun kv => kv.1 == k)).map (·.2)

/-- Python `dict.get(k)`: `None` when the key is absent, else the value. -/
def pyFlatGet (d : FieldDict) (k : String) : Option String :=
  match pyDictGet d k with
  | some v => v
  | none => none

/-- Python `a or b` on `Optional[str]` values: `a` unless it is falsy
(`None` or the empty string), else `b`. -/
def pyOr (a b : Option String) : Option String :=
  match a with
  | some s => if s != "" then some s else b
  | none => b

/-- Python `str.lower()` (ASCII letters, the only ones the source cares about). -/
def pyLower (s : String) : String := (s.toList.map Char.toLower).asString

/-- `pat` occurs as a contiguous sublist of `s` (Python's `pat in s` on the
underlying strings). -/
def isInfixB (pat : List Char) : List Char → Bool
  | [] => pat.isEmpty
  | c :: rest => pat.isPrefixOf (c :: rest) || isInfixB pat rest

/-- Python `pat in s` substring test. -/
def substrB (pat s : String) : Bool := isInfixB pat.toList s.toList

/-- Python `str.strip()` on a character list: drop leading and trailing
whitespace. -/
def stripChars (cs : List Char) : List Char :=
  (((cs.dropWhile Char.isWhitespace).reverse.dropWhile Char.isWhitespace).reverse)

/-- Python `str.strip()`. -/
def stripS (s : String) : String := (stripChars s.toList).asString

/-- Python `str.isdigit()`: non-empty and all digits. -/
def isdigitPy (s : String) : Bool := !s.toList.isEmpty && s.toList.all Char.isDigit

/-- `re.search("[A-Za-z]", cand)`: contains a letter. -/
def hasLetter (s : String) : Bool := s.toList.any Char.isAlpha

/-- The anchored zip pattern `\d{5}(?:-\d{4})?` matched against the whole
character list (the validator's `^\d{5}(?:-\d{4})?$` and the capture group
of the tier-5 address regex share this shape). -/
def zipExact (cs : List Char) : Bool :=
  match cs with
  | [a, b, c, d, e] => [a, b, c, d, e].all Char.isDigit
  | [a, b, c, d, e, h, f, g, i, j] =>
      [a, b, c, d, e].all Char.isDigit && h == '-' && [f, g, i, j].all Char.isDigit
  | _ => false

/-- `re.search(r"^\d{5}(?:-\d{4})?$", s)` as a Bool (no trailing newline can
occur in the stripped strings this is applied to, so `$` is end-of-string). -/
def zipRe (s : String) : Bool := zipExact s.toList

/-- `re.search(r"^[A-Za-z]{2}$", s)`: exactly two letters. -/
def twoLetterRe (s : String) : Bool :=
  match s.toList with
  | [a, b] => a.isAlpha && b.isAlpha
  | _ => false

/-- `re.search(r"\d+|street|st\.|ave|road|rd\.|lane|ln\.|drive|dr\.", s)` on an
already-lowercased string: contains a digit or one of the literal tokens. -/
def streetRe (s : String) : Bool :=
  s.toList.any Char.isDigit ||
  ["street", "st.", "ave", "road", "rd.", "lane", "ln.", "drive", "dr."].any
    (fun t => substrB t s)

/-- Separator class (dash, slash or backslash) of the first date pattern. -/
def isDateSep (c : Char) : Bool := c == '-' || c == '/' || c == '\\'

/-- Match `\d{lo,hi}` at the head of `cs` and continue with `cont` on the
rest; existential over the repetition count (equivalent to the backtracking
regex engine for pure match-existence). -/
def numThen (lo hi : Nat) (cont : List Char → Bool) (cs : List Char) : Bool :=
  (List.range' lo (hi + 1 - lo)).any (fun k =>
    decide ((cs.take k).length = k) && (cs.take k).all Char.isDigit && cont (cs.drop k))

/-- Match `\d{1,4}` SEP `\d{1,2}` SEP `\d{1,4}` (with SEP a date separator) at
the head of `cs`, remainder unconstrained (`re.search` semantics at one
position). -/
def date1At (cs : List Char) : Bool :=
  numThen 1 4 (fun r1 =>
    match r1 with
    | c1 :: r2 =>
        isDateSep c1 && numThen 1 2 (fun r3 =>
          match r3 with
          | c2 :: r4 => isDateSep c2 && numThen 1 4 (fun _ => true) r4
          | [] => false) r2
    | [] => false) cs

/-- Match `\d{1,2}/\d{1,2}/\d{2,4}` at the head of `cs`. -/
def date2At (cs : List Char) : Bool :=
  numThen 1 2 (fun r1 =>
    match r1 with
    | c1 :: r2 =>
        c1 == '/' && numThen 1 2 (fun r3 =>
          match r3 with
          | c2 :: r4 => c2 == '/' && numThen 2 3 (fun _ => true) r4
          | [] => false) r2
    | [] => false) cs

/-- `re.search`: the pattern matches starting at some position. -/
def searchAny (p : List Char → Bool) : List Char → Bool
  | [] => p []
  | c :: rest => p (c :: rest) || searchAny p rest

/-- The date validator of the source: first pattern digits separated twice by
a date separator, or second pattern digits separated twice by a slash. -/
def dateRe (s : String) : Bool :=
  searchAny date1At s.toList || searchAny date2At s.toList

/-- `DataMapper._validate_candidate_for_placeholder` (data_mapper.py 190-233).
`candidate` is the Python value (possibly `None`); `cand` of the source is the
stripped string `stripS c0`, and `lower_ph` is `pyLower ph`, both inlined. -/
def validate_candidate_for_placeholder (ph : String) : Option String → Bool
  | none => false
  | some c0 =>
    if stripS c0 == "" then false
    else if substrB "zip" (pyLower ph) then zipRe (stripS c0)
    else if substrB "city" (pyLower ph) then
      hasLetter (stripS c0) && !isdigitPy (stripS c0)
    else if substrB "state" (pyLower ph) then
      twoLetterRe (stripS c0) || hasLetter (stripS c0)
    else if substrB "street" (pyLower ph) || substrB "st" (pyLower ph) then
      streetRe (pyLower (stripS c0))
    else if substrB "date" (pyLower ph) then dateRe (stripS c0)
    else if substrB "policy" (pyLower ph) || substrB "claim" (pyLower ph) then
      decide (0 < (stripS c0).length)
    else if substrB "insured" (pyLower ph) || substrB "name" (pyLower ph) then
      hasLetter (stripS c0) && !isdigitPy (stripS c0)
    else !isdigitPy (stripS c0)

/-- The eight type-plausibility rules of the validator, in the claim's
precedence order (refinement view of data_mapper.py 201-233). -/
inductive ValRule
  | zipR | cityR | stateR | streetR | dateR | policyR | nameR | defaultR
deriving DecidableEq

/-- Rule selection by first matching keyword of the lowercased placeholder
name, in the validator's fixed precedence order: this factors the claim's
"exactly one rule per candidate" view out of the source's if-chain. -/
def valRuleFor (ph : String) : ValRule :=
  if substrB "zip" (pyLower ph) then .zipR
  else if substrB "city" (pyLower ph) then .cityR
  else if substrB "state" (pyLower ph) then .stateR
  else if substrB "street" (pyLower ph) || substrB "st" (pyLower ph) then .streetR
  else if substrB "date" (pyLower ph) then .dateR
  else if substrB "policy" (pyLower ph) || substrB "claim" (pyLower ph) then .policyR
  else if substrB "insured" (pyLower ph) || substrB "name" (pyLower ph) then .nameR
  else .defaultR

/-- The acceptance test of each rule, applied to the stripped candidate. -/
def applyValRule : ValRule → String → Bool
  | .zipR, c => zipRe c
  | .cityR, c => hasLetter c && !isdigitPy c
  | .stateR, c => twoLetterRe c || hasLetter c
  | .streetR, c => streetRe (pyLower c)
  | .dateR, c => dateRe c
  | .policyR, c => decide (0 < c.length)
  | .nameR, c => hasLetter c && !isdigitPy c
  | .defaultR, c => !isdigitPy c

/-- `DataMapper.DEFAULT_MAPPING` (data_mapper.py 17-30): template placeholder →
extracted-data field (`none` = the Python `None` entry). -/
def DEFAULT_MAPPING : FieldDict :=
  [ ("DATE_LOSS", some "date_of_loss")
  , ("INSURED_NAME", some "insured_name")
  , ("MORTGAGE_CO", some "mortgage_company")
  , ("INSURED_H_STREET", some "address_street")
  , ("INSURED_H_CITY", some "address_city")
  , ("INSURED_H_STATE", some "address_state")
  , ("INSURED_H_ZIP", some "address_zip")
  , ("DATE_INSPECTED", some "date_inspected")
  , ("MORTGAGEE", some "mortgage_company")
  , ("TOL_CODE", some "type_of_loss")
  , ("DATE_RECEIVED", none)
  , ("POLICY_NUMBER", some "policy_number")
  ]

/-- `norm` helper (data_mapper.py 86-87): lowercase, keep only `a-z0-9`. -/
def normS (s : String) : String :=
  ((s.toList.map Char.toLower).filter (fun c => c.isLower || c.isDigit)).asString

/-- Tokenizer core: maximal runs of lowercase letters and maximal runs of
digits in an already-lowercased character list (the regex `[a-z]+|\d+` with
`findall`).  The fuel argument keeps the recursion structural; every step
consumes at least one character, so fuel equal to the list length (as
`tokensAux` supplies) is always enough. -/
def tokensAuxF : Nat → List Char → List String
  | _, [] => []
  | 0, _ => []
  | fuel + 1, c :: rest =>
    if c.isLower then
      (c :: rest.takeWhile Char.isLower).asString ::
        tokensAuxF fuel (rest.dropWhile Char.isLower)
    else if c.isDigit then
      (c :: rest.takeWhile Char.isDigit).asString ::
        tokensAuxF fuel (rest.dropWhile Char.isDigit)
    else tokensAuxF fuel rest

/-- Maximal letter/digit runs of a lowercased character list. -/
def tokensAux (cs : List Char) : List String := tokensAuxF cs.length cs

/-- `tokens` helper (data_mapper.py 109-111). -/
def tokens (s : String) : List String := tokensAux (s.toList.map Char.toLower)

/-- `len(set(tokens ph) & set(tokens key))`: number of distinct shared tokens. -/
def overlap_score (phT keyT : List String) : Nat :=
  (phT.dedup.filter (fun t => keyT.contains t)).length

/-- The tier-4 scan (data_mapper.py 113-124): fold over the dictionary in
insertion order keeping the first strictly-best-scoring non-null entry
(key and its value) together with its score.  `best_key` is `none` exactly
when the best score stayed `0`, so the source's `if best_key and
best_score > 0` guard is the `some` case of the first component. -/
def best_token_match (d : FieldDict) (ph : String) : Option (String × String) × Nat :=
  d.foldl (fun acc kv =>
    match kv.2 with
    | none => acc
    | some v =>
      if acc.2 < overlap_score (tokens ph) (tokens kv.1) then
        (some (kv.1, v), overlap_score (tokens ph) (tokens kv.1))
      else acc) (none, 0)

/-- The tier-4 blacklist test (data_mapper.py 43 and 129): the matched field
name contains an identity token and the placeholder name contains an address
component. -/
def blacklist_hit (best_key ph : String) : Bool :=
  (["insured", "name", "member"].any (fun b => substrB b (pyLower best_key))) &&
  (["city", "street", "state", "zip", "address"].any (fun x => substrB x (pyLower ph)))

/-- Python `s.replace('\n', ', ')` over characters (data_mapper.py 153). -/
def replaceNl : List Char → List Char
  | [] => []
  | c :: rest => (if c == '\n' then [',', ' '] else [c]) ++ replaceNl rest

/-- Python `s.split(',')` (single-character separator; empty segments kept). -/
def splitComma : List Char → List (List Char)
  | [] => [[]]
  | c :: rest =>
    match splitComma rest with
    | [] => [[]]
    | h :: t => if c == ',' then [] :: h :: t else (c :: h) :: t

/-- `[p.strip() for p in addr.split(',') if p.strip()]` (data_mapper.py 154)
applied to the newline-normalized full address. -/
def addr_parts (fa : String) : List (List Char) :=
  ((splitComma (replaceNl fa.toList)).map stripChars).filter (fun p => !p.isEmpty)

/-- One position of `re.search(r"([A-Za-z]{2})\s*(\d{5}(?:-\d{4})?)$", last)`:
two letters, then greedy whitespace, then the zip shape exactly to the end of
the string; returns the two capture groups (state, zip). -/
def stateZipAt (cs : List Char) : Option (String × String) :=
  match cs with
  | a :: b :: rest =>
    if a.isAlpha && b.isAlpha then
      if zipExact (rest.dropWhile Char.isWhitespace) then
        some ([a, b].asString, (rest.dropWhile Char.isWhitespace).asString)
      else none
    else none
  | _ => none

/-- Leftmost `re.search` for the state-zip pattern. -/
def stateZipSearch : List Char → Option (String × String)
  | [] => none
  | c :: rest =>
    match stateZipAt (c :: rest) with
    | some r => some r
    | none => stateZipSearch rest

/-- Python `', '.join` over character-list segments. -/
def joinSep (sep : List Char) : List (List Char) → List Char
  | [] => []
  | [p] => p
  | p :: rest => p ++ sep ++ joinSep sep rest

/-- The city/state/zip triple computed by data_mapper.py 161-175 from the
comma-split parts: when at least two parts exist, search the last part for
state-zip; on success city is the joined middle parts (or `None` with only two
parts), otherwise the last part is the city. -/
def addr_city_state_zip (parts : List (List Char)) :
    Option String × Option String × Option String :=
  if 2 ≤ parts.length then
    match parts.getLast? with
    | some last =>
      match stateZipSearch last with
      | some sz =>
          ( (if 2 < parts.length then
               some (joinSep [',', ' '] ((parts.drop 1).dropLast)).asString
             else none)
          , some sz.1, some sz.2)
      | none => (some last.asString, none, none)
    | none => (none, none, none)
  else (none, none, none)

/-- `full_addr` selection (data_mapper.py 146-149): the `address` field when
present as a string, else `risk_address or address` with Python truthiness. -/
def full_address_of (d : FieldDict) : Option String :=
  match pyDictGet d "address" with
  | some (some s) => some s
  | _ => pyOr (pyFlatGet d "risk_address") (pyFlatGet d "address")

/-- Tier 5, the address-parsing fallback (data_mapper.py 139-188): entered
only when a truthy full address exists and the lowercased placeholder contains
one of `street`, `ins`, `insured_h`, `ins_h`; dispatches on the placeholder
name in the source's order and returns the requested sub-part (possibly the
Python `None`). -/
def find_from_5 (d : FieldDict) (ph : String) : Option String :=
  match full_address_of d with
  | none => none
  | some fa =>
    if fa != "" &&
        (substrB "street" (pyLower ph) || substrB "ins" (pyLower ph) ||
         substrB "insured_h" (pyLower ph) || substrB "ins_h" (pyLower ph)) then
      if substrB "ins_h_street" (pyLower ph) || substrB "insured_h_street" (pyLower ph) then
        (addr_parts fa).head?.map List.asString
      else if substrB "city" (pyLower ph) then (addr_city_state_zip (addr_parts fa)).1
      else if substrB "state" (pyLower ph) then (addr_city_state_zip (addr_parts fa)).2.1
      else if substrB "zip" (pyLower ph) || substrB "zip_code" (pyLower ph) then
        (addr_city_state_zip (addr_parts fa)).2.2
      else none
    else none

/-- Tier 4, token overlap (data_mapper.py 108-137).  The source's blacklist
rejection (line 129-130) only logs: the duplicated lines 135-137 re-validate
and return the candidate unconditionally afterwards, which this definition
reproduces faithfully. -/
def find_from_4 (d : FieldDict) (ph : String) : Option String :=
  match (best_token_match d ph).1 with
  | some kv =>
    if !blacklist_hit kv.1 ph && validate_candidate_for_placeholder ph (some kv.2) then
      some kv.2          -- lines 131-134: the non-blacklisted validated return
    else if validate_candidate_for_placeholder ph (some kv.2) then
      some kv.2          -- lines 135-137: unconditional duplicated return
    else find_from_5 d ph
  | none => find_from_5 d ph

/-- Tier 3, normalized substring match both ways (data_mapper.py 99-106):
first non-null entry whose normalized key is a substring of the normalized
placeholder or vice versa (with a non-empty normalized key) and which passes
validation. -/
def find_from_3 (d : FieldDict) (ph : String) : Option String :=
  match d.find? (fun kv =>
      match kv.2 with
      | none => false
      | some v =>
        (normS kv.1 != "") &&
        (substrB (normS kv.1) (normS ph) || substrB (normS ph) (normS kv.1)) &&
        validate_candidate_for_placeholder ph (some v)) with
  | some kv => kv.2
  | none => find_from_4 d ph

/-- Tier 2, normalized exact match (data_mapper.py 91-97): first non-null
entry whose normalized key equals the normalized placeholder and which passes
validation. -/
def find_from_2 (d : FieldDict) (ph : String) : Option String :=
  match d.find? (fun kv =>
      match kv.2 with
      | none => false
      | some v =>
        (normS kv.1 == normS ph) &&
        validate_candidate_for_placeholder ph (some v)) with
  | some kv => kv.2
  | none => find_from_3 d ph

/-- Tier 1's candidate (data_mapper.py 77-81): `some cand` when the
placeholder has a truthy alias field that is present in the dictionary
(`cand` may be the Python `None`); `none` when tier 1 does not reach
validation. -/
def alias_candidate (d : FieldDict) (ph : String) : Option (Option String) :=
  match pyDictGet DEFAULT_MAPPING ph with
  | some (some mf) => if mf != "" then pyDictGet d mf else none
  | _ => none

/-- `DataMapper._find_value_for_placeholder` (data_mapper.py 67-188): the full
tier cascade. -/
def find_value_for_placeholder (d : FieldDict) (ph : String) : Option String :=
  match alias_candidate d ph with
  | some cand =>
    if validate_candidate_for_placeholder ph cand then cand
    else find_from_2 d ph
  | none => find_from_2 d ph

/-- `DataMapper.map_data` (data_mapper.py 46-65): total replacement mapping in
placeholder-iteration order, empty string for unresolved placeholders
(`str(value)` is the identity on the string values of the dictionary). -/
def map_data (d : FieldDict) (placeholders : List String) : List (String × String) :=
  placeholders.map (fun ph =>
    (ph, match find_value_for_placeholder d ph with
         | some v => v
         | none => ""))

/-- The `mapping_used` dictionary populated by `map_data` (data_mapper.py 60):
placeholder → value for the resolved placeholders only, in iteration order
(the placeholder set of the source has no duplicates). -/
def mapping_used (d : FieldDict) (placeholders : List String) : List (String × String) :=
  placeholders.filterMap (fun ph =>
    (find_value_for_placeholder d ph).map (fun v => (ph, v)))

/-- The report structure returned by `DataMapper.get_mapping_report`
(data_mapper.py 235-247). -/
structure MappingReport where
  totalPlaceholders : Nat
  mappedCount : Nat
  unmapped : List String
  mappingUsed : List (String × String)
deriving DecidableEq

/-- `DataMapper.get_mapping_report` (data_mapper.py 235-247): the `unmapped`
set difference `template_placeholders - set(mapping_used.keys())` is
determinized in placeholder-iteration order. -/
def get_mapping_report (d : FieldDict) (placeholders : List String) : MappingReport :=
  { totalPlaceholders := placeholders.length
  , mappedCount := (mapping_used d placeholders).length
  , unmapped := placeholders.filter
      (fun ph => !(mapping_used d placeholders).any (fun kv => kv.1 == ph))
  , mappingUsed := mapping_used d placeholders }

/-! ### Document model and filler (`template_handler.py`) -/

/-- Python `full_text.replace(pat, rep)`: all non-overlapping occurrences,
left to right.  The guard on an empty pattern keeps the function total; the
source only ever passes the non-empty pattern `"[" + placeholder + "]"`. -/
def replaceSubF (pat rep : List Char) : Nat → List Char → List Char
  | _, [] => []
  | 0, l => l
  | fuel + 1, c :: rest =>
    if !pat.isEmpty && pat.isPrefixOf (c :: rest) then
      rep ++ replaceSubF pat rep fuel ((c :: rest).drop pat.length)
    else
      c :: replaceSubF pat rep fuel rest

/-- Replace all non-overlapping occurrences, left to right; the fuel keeps the
recursion structural and fuel equal to the list length (as supplied below) is
always enough because a non-empty pattern consumes at least one character. -/
def replaceSub (pat rep cs : List Char) : List Char := replaceSubF pat rep cs.length cs

/-- Python `str.replace` on strings. -/
def pyReplace (s pat rep : String) : String :=
  (replaceSub pat.toList rep.toList s.toList).asString

/-- A text run of the docx document model: its text together with the two
formatting attributes the source reads and writes (`font.size`, in points, and
the tri-state `font.bold`); `none` models the python-docx "inherited" value. -/
structure Run where
  text : String
  size : Option Nat
  bold : Option Bool
deriving DecidableEq

/-- A paragraph: an ordered sequence of runs. -/
structure Paragraph where
  runs : List Run
deriving DecidableEq

/-- python-docx `paragraph.text`: concatenation of the run texts. -/
def Paragraph.text (p : Paragraph) : String := String.join (p.runs.map Run.text)

/-- `run.text = ""` of the clearing loop (template_handler.py 88-89). -/
def clearRun (r : Run) : Run := { r with text := "" }

/-- One placeholder replacement inside `replace_text_in_paragraph`
(template_handler.py 81-101), already knowing the token occurs: substitute in
the concatenated text, empty every existing run, append the new run, and copy
size/bold from the first pre-existing run when the paragraph then has more
than one run (python-docx truthiness: a size of `None` or `0` and a bold of
`None` or `False` are not copied). -/
def applyReplace (p : Paragraph) (pt v : String) : Paragraph :=
  let newText := pyReplace p.text pt v
  match p.runs.map clearRun with
  | [] => { runs := [{ text := newText, size := none, bold := none }] }
  | fr :: rest =>
    { runs := (fr :: rest) ++
        [{ text := newText
         , size := if fr.size.getD 0 != 0 then fr.size else none
         , bold := if fr.bold.getD false then fr.bold else none }] }

/-- `DocxTemplateHandler.replace_text_in_paragraph` (template_handler.py
63-105): iterate the replacement mapping in order, substituting whenever the
bracketed token occurs in the paragraph's current text; returns the rebuilt
paragraph and the changed flag (`str(value or "")` is the identity on string
values, the empty string included). -/
def replace_text_in_paragraph_go (acc : Paragraph × Bool) :
    List (String × String) → Paragraph × Bool
  | [] => acc
  | kv :: rest =>
    replace_text_in_paragraph_go
      (if substrB ("[" ++ kv.1 ++ "]") acc.1.text then
        (applyReplace acc.1 ("[" ++ kv.1 ++ "]") kv.2, true)
      else acc) rest

/-- `DocxTemplateHandler.replace_text_in_paragraph` proper: starts from the
given paragraph with the changed flag `false`. -/
def replace_text_in_paragraph (p : Paragraph) (replacements : List (String × String)) :
    Paragraph × Bool :=
  replace_text_in_paragraph_go (p, false) replacements

/-- A table cell: a sequence of paragraphs. -/
structure Cell where
  paragraphs : List Paragraph
deriving DecidableEq

/-- A table row: a sequence of cells. -/
structure Row where
  cells : List Cell
deriving DecidableEq

/-- A table: a sequence of rows. -/
structure Table where
  rows : List Row
deriving DecidableEq

/-- The docx document model as the source traverses it: the document's direct
paragraphs and its tables. -/
structure Document where
  paragraphs : List Paragraph
  tables : List Table
deriving DecidableEq

/-- `DocxTemplateHandler.fill_template` (template_handler.py 107-134) acting
on the deep copy: every direct paragraph and every table-cell paragraph of the
copy goes through `replace_text_in_paragraph`. -/
def fill_template (doc : Document) (replacements : List (String × String)) : Document :=
  { paragraphs := doc.paragraphs.map (fun p => (replace_text_in_paragraph p replacements).1)
  , tables := doc.tables.map (fun t =>
      { rows := t.rows.map (fun r =>
          { cells := r.cells.map (fun c =>
              { paragraphs := c.paragraphs.map
                  (fun p => (replace_text_in_paragraph p replacements).1) }) }) }) }

/-- The template handler's state: the loaded document (`self.document`). -/
structure DocxTemplateHandler where
  document : Document
deriving DecidableEq

/-- The `fill_template` method as a state transformer: it reads
`self.document`, works on a `deepcopy` (a value copy in this embedding), and
never assigns to `self.document`, so the handler state it leaves behind is
returned unchanged alongside the filled copy. -/
def DocxTemplateHandler.fillTemplateM (h : DocxTemplateHandler)
    (replacements : List (String × String)) : Document × DocxTemplateHandler :=
  (fill_template h.document replacements, h)

/-- Shape of a table: the paragraph count of every cell, row by row
(captures block order and cell structure). -/
def tableShape (t : Table) : List (List Nat) :=
  t.rows.map (fun r => r.cells.map (fun c => c.paragraphs.length))

/-! ### Helper lemmas -/

/-- `applyReplace` always yields the emptied pre-existing runs followed by
exactly one new run. -/
lemma applyReplace_runs (q : Paragraph) (pt v : String) :
    ∃ r, (applyReplace q pt v).runs = q.runs.map clearRun ++ [r] := by
  cases hq : q.runs.map clearRun with
  | nil =>
    refine ⟨{ text := pyReplace q.text pt v, size := none, bold := none }, ?_⟩
    simp [applyReplace, hq]
  | cons fr rest =>
    refine ⟨{ text := pyReplace q.text pt v
            , size := if fr.size.getD 0 != 0 then fr.size else none
            , bold := if fr.bold.getD false then fr.bold else none }, ?_⟩
    simp [applyReplace, hq]

/-- Emptying a run twice is the same as emptying it once. -/
lemma clearRun_idem (r : Run) : clearRun (clearRun r) = clearRun r := rfl

/-- Invariant of the replacement loop: the paragraph is either untouched or
consists of its original runs (texts emptied, in order) plus appended runs. -/
lemma replace_go_structure (p : Paragraph) :
    ∀ (l : List (String × String)) (acc : Paragraph × Bool),
      (acc.1 = p ∨ ∃ tail, acc.1.runs = p.runs.map clearRun ++ tail) →
      ((replace_text_in_paragraph_go acc l).1 = p ∨
        ∃ tail, (replace_text_in_paragraph_go acc l).1.runs = p.runs.map clearRun ++ tail)
  | [], acc, hinv => by simpa [replace_text_in_paragraph_go] using hinv
  | kv :: rest, acc, hinv => by
    rw [replace_text_in_paragraph_go]
    apply replace_go_structure p rest
    by_cases hc : substrB ("[" ++ kv.1 ++ "]") acc.1.text = true
    · rw [if_pos hc]
      right
      obtain ⟨r, hr⟩ := applyReplace_runs acc.1 ("[" ++ kv.1 ++ "]") kv.2
      rcases hinv with heq | ⟨tail, htail⟩
      · exact ⟨[r], by rw [hr, heq]⟩
      · refine ⟨tail.map clearRun ++ [r], ?_⟩
        rw [hr, htail]
        simp [List.map_map, Function.comp_def, clearRun_idem]
    · rw [if_neg hc]
      exact hinv

/-- The four whitespace characters recognized by `Char.isWhitespace`. -/
lemma ws_char_cases (c : Char) (h : c.isWhitespace = true) :
    c = ' ' ∨ c = '\t' ∨ c = '\r' ∨ c = '\n' := by
  simp [Char.isWhitespace] at h
  tauto

/-- Digits are not whitespace. -/
lemma digit_not_ws (c : Char) (h : c.isDigit = true) : c.isWhitespace = false := by
  by_contra hw
  rw [Bool.not_eq_false] at hw
  rcases ws_char_cases c hw with rfl | rfl | rfl | rfl <;> exact absurd h (by decide)

/-- Letters are not whitespace. -/
lemma alpha_not_ws (c : Char) (h : c.isAlpha = true) : c.isWhitespace = false := by
  by_contra hw
  rw [Bool.not_eq_false] at hw
  rcases ws_char_cases c hw with rfl | rfl | rfl | rfl <;> exact absurd h (by decide)

/-- The first element surviving `dropWhile` fails the predicate. -/
lemma dropWhile_head_false (p : Char → Bool) :
    ∀ (l : List Char) (a : Char) (t : List Char), l.dropWhile p = a :: t → p a = false
  | [], a, t, h => by simp [List.dropWhile] at h
  | c :: rest, a, t, h => by
    rw [List.dropWhile_cons] at h
    by_cases hc : p c = true
    · rw [if_pos hc] at h
      exact dropWhile_head_false p rest a t h
    · rw [if_neg hc] at h
      injection h with h1 _
      subst h1
      exact Bool.eq_false_iff.mpr hc

/-- Membership survives `dropWhile` removal. -/
lemma mem_of_mem_dropWhile (p : Char → Bool) :
    ∀ (l : List Char) (c : Char), c ∈ l.dropWhile p → c ∈ l
  | [], c, h => by simp [List.dropWhile] at h
  | a :: rest, c, h => by
    rw [List.dropWhile_cons] at h
    by_cases ha : p a = true
    · rw [if_pos ha] at h
      exact List.mem_cons_of_mem a (mem_of_mem_dropWhile p rest c h)
    · rw [if_neg ha] at h
      exact h

/-- Characters of the stripped string come from the original. -/
lemma mem_stripChars {c : Char} {q : List Char} (h : c ∈ stripChars q) : c ∈ q := by
  unfold stripChars at h
  rw [List.mem_reverse] at h
  have h1 := mem_of_mem_dropWhile Char.isWhitespace _ c h
  rw [List.mem_reverse] at h1
  exact mem_of_mem_dropWhile Char.isWhitespace _ c h1

/-- A non-empty stripped string contains a non-whitespace character. -/
lemma stripChars_ne_nil_any (q : List Char) (h : stripChars q ≠ []) :
    (stripChars q).any (fun c => !c.isWhitespace) = true := by
  rw [List.any_eq_true]
  unfold stripChars at h ⊢
  cases hxv : (q.dropWhile Char.isWhitespace).reverse.dropWhile Char.isWhitespace with
  | nil => rw [hxv] at h; simp at h
  | cons a t =>
    have ha := dropWhile_head_false Char.isWhitespace _ a t hxv
    refine ⟨a, ?_, by simp [ha]⟩
    rw [List.mem_reverse]
    exact List.mem_cons_self a t

/-- `dropWhile` is the identity when no element satisfies the predicate. -/
lemma dropWhile_eq_self_of_all (p : Char → Bool) (l : List Char)
    (h : l.all (fun c => !p c) = true) : l.dropWhile p = l := by
  cases l with
  | nil => rfl
  | cons a t =>
    have ha : p a = false := by
      simp [List.all_cons] at h
      simpa using h.1
    rw [List.dropWhile_cons, if_neg (by simp [ha])]

/-- Stripping a string of non-whitespace characters changes nothing. -/
lemma stripChars_eq_self_of_all (q : List Char)
    (h : q.all (fun c => !c.isWhitespace) = true) : stripChars q = q := by
  unfold stripChars
  rw [dropWhile_eq_self_of_all _ _ h]
  rw [dropWhile_eq_self_of_all _ _ (by simpa [List.all_reverse] using h)]
  exact List.reverse_reverse q

/-- Every character of a zip-shaped list is a digit or a dash, hence not
whitespace. -/
lemma zipExact_all_nonws (cs : List Char) (h : zipExact cs = true) :
    cs.all (fun c => !c.isWhitespace) = true := by
  unfold zipExact at h
  split at h
  · simp only [List.all_cons, List.all_nil, Bool.and_eq_true] at h ⊢
    obtain ⟨h1, h2, h3, h4, h5, -⟩ := h
    simp [digit_not_ws _ h1, digit_not_ws _ h2, digit_not_ws _ h3,
      digit_not_ws _ h4, digit_not_ws _ h5]
  · simp only [List.all_cons, List.all_nil, Bool.and_eq_true, beq_iff_eq] at h ⊢
    obtain ⟨⟨⟨h1, h2, h3, h4, h5, -⟩, hd⟩, g1, g2, g3, g4, -⟩ := h
    subst hd
    simp [digit_not_ws _ h1, digit_not_ws _ h2, digit_not_ws _ h3,
      digit_not_ws _ h4, digit_not_ws _ h5, digit_not_ws _ g1,
      digit_not_ws _ g2, digit_not_ws _ g3, digit_not_ws _ g4]
  · exact absurd h (by simp)

/-- A validated candidate has a non-empty strip. -/
lemma validate_true_strip_ne (ph c : String)
    (hv : validate_candidate_for_placeholder ph (some c) = true) : stripS c ≠ "" := by
  intro heq
  have hb : (stripS c == "") = true := by simp [heq]
  simp [validate_candidate_for_placeholder, hb] at hv

/-- A validated candidate contains a non-whitespace character. -/
lemma validate_some_any_nonws (ph v : String)
    (hv : validate_candidate_for_placeholder ph (some v) = true) :
    v.toList.any (fun c => !c.isWhitespace) = true := by
  have hne := validate_true_strip_ne ph v hv
  have hne' : stripChars v.toList ≠ [] := by
    intro h0
    apply hne
    unfold stripS
    rw [h0]
    rfl
  have hany := stripChars_ne_nil_any _ hne'
  rw [List.any_eq_true] at hany ⊢
  obtain ⟨c, hc, hcw⟩ := hany
  exact ⟨c, mem_stripChars hc, hcw⟩

/-- For a zip-flavored placeholder, validation is exactly the zip regex on the
stripped candidate. -/
lemma validate_zip (ph c : String) (hz : substrB "zip" (pyLower ph) = true)
    (hv : validate_candidate_for_placeholder ph (some c) = true) :
    zipRe (stripS c) = true := by
  by_cases he : (stripS c == "") = true
  · simp [validate_candidate_for_placeholder, he] at hv
  · simp only [validate_candidate_for_placeholder,
      Bool.not_eq_true] at hv
    rw [Bool.not_eq_true] at he
    rw [he] at hv
    simp only [Bool.false_eq_true, if_false] at hv
    rw [hz] at hv
    simpa using hv

/-- Round trip from a character list through `String` and back. -/
lemma toList_asString (l : List Char) : l.asString.toList = l := rfl

/-- Split a true Boolean conjunction. -/
lemma band_true {a b : Bool} (h : (a && b) = true) : a = true ∧ b = true := by
  simpa using h

/-- The head given by `head?` is a member. -/
lemma mem_of_head_eq {α : Type} {l : List α} {a : α} (h : l.head? = some a) : a ∈ l := by
  cases l with
  | nil => simp at h
  | cons x t =>
    simp only [List.head?_cons, Option.some.injEq] at h
    subst h
    exact List.mem_cons_self x t

/-- The last element given by `getLast?` is a member. -/
lemma mem_of_getLast_eq {α : Type} : ∀ {l : List α} {a : α}, l.getLast? = some a → a ∈ l
  | [], a, h => by simp at h
  | [x], a, h => by
    simp only [List.getLast?_singleton, Option.some.injEq] at h
    subst h
    exact List.mem_cons_self x []
  | x :: y :: t, a, h => by
    rw [List.getLast?_cons_cons] at h
    exact List.mem_cons_of_mem x (mem_of_getLast_eq h)

/-- A non-empty stripped string is pure whitespace-free at some position. -/
lemma part_any_nonws {p : List Char} {fa : String} (h : p ∈ addr_parts fa) :
    p.any (fun c => !c.isWhitespace) = true := by
  unfold addr_parts at h
  rw [List.mem_filter] at h
  obtain ⟨hmem, hne⟩ := h
  rw [List.mem_map] at hmem
  obtain ⟨q, -, hq⟩ := hmem
  have hpne : p ≠ [] := by
    intro h0
    rw [h0] at hne
    simp at hne
  rw [← hq]
  exact stripChars_ne_nil_any q (by rw [hq]; exact hpne)

/-- Elements of the middle segments are parts. -/
lemma mem_mid_subset {α : Type} {parts : List α} {m : α}
    (h : m ∈ (parts.drop 1).dropLast) : m ∈ parts :=
  (List.dropLast_sublist _).subset.trans (List.drop_sublist 1 parts).subset h

/-- Shape of a successful position match of the state-zip regex. -/
lemma stateZipAt_spec (cs : List Char) (st zp : String) (h : stateZipAt cs = some (st, zp)) :
    (∃ a b, st = [a, b].asString ∧ a.isAlpha = true ∧ b.isAlpha = true) ∧
    zipExact zp.toList = true := by
  unfold stateZipAt at h
  split at h
  · rename_i a b rest
    split at h
    · rename_i hab
      split at h
      · rename_i hzip
        injection h with h1
        rw [Prod.mk.injEq] at h1
        obtain ⟨h2, h3⟩ := h1
        subst h2
        subst h3
        obtain ⟨ha, hb⟩ := band_true hab
        exact ⟨⟨a, b, rfl, ha, hb⟩, hzip⟩
      · exact absurd h (by simp)
    · exact absurd h (by simp)
  · exact absurd h (by simp)

/-- Shape of a successful search for the state-zip regex. -/
lemma stateZipSearch_spec :
    ∀ (cs : List Char) (st zp : String), stateZipSearch cs = some (st, zp) →
      (∃ a b, st = [a, b].asString ∧ a.isAlpha = true ∧ b.isAlpha = true) ∧
      zipExact zp.toList = true
  | [], st, zp, h => by simp [stateZipSearch] at h
  | c :: rest, st, zp, h => by
    rw [stateZipSearch] at h
    split at h
    · rename_i r heq
      injection h with h1
      subst h1
      exact stateZipAt_spec (c :: rest) st zp heq
    · exact stateZipSearch_spec rest st zp h

/-- The zip component of the tier-5 triple is zip-shaped. -/
lemma acsz_zip_spec (parts : List (List Char)) (v : String)
    (h : (addr_city_state_zip parts).2.2 = some v) : zipExact v.toList = true := by
  unfold addr_city_state_zip at h
  split at h
  · split at h
    · rename_i last hlast
      split at h
      · rename_i sz hsz
        have h' : some sz.2 = some v := h
        injection h' with h2
        subst h2
        exact (stateZipSearch_spec last sz.1 sz.2 (by rw [hsz])).2
      · exact absurd h (by simp)
    · exact absurd h (by simp)
  · exact absurd h (by simp)

/-- The state component of the tier-5 triple is a two-letter code. -/
lemma acsz_state_spec (parts : List (List Char)) (v : String)
    (h : (addr_city_state_zip parts).2.1 = some v) :
    ∃ a b, v = [a, b].asString ∧ a.isAlpha = true ∧ b.isAlpha = true := by
  unfold addr_city_state_zip at h
  split at h
  · split at h
    · rename_i last hlast
      split at h
      · rename_i sz hsz
        have h' : some sz.1 = some v := h
        injection h' with h2
        subst h2
        exact (stateZipSearch_spec last sz.1 sz.2 (by rw [hsz])).1
      · exact absurd h (by simp)
    · exact absurd h (by simp)
  · exact absurd h (by simp)

/-- The city component of the tier-5 triple extends one of the parts. -/
lemma acsz_city_spec (parts : List (List Char)) (v : String)
    (h : (addr_city_state_zip parts).1 = some v) :
    ∃ p rest2, p ∈ parts ∧ v.toList = p ++ rest2 := by
  unfold addr_city_state_zip at h
  split at h
  · rename_i hlen2
    split at h
    · rename_i last hlast
      split at h
      · rename_i sz hsz
        have h' : (if 2 < parts.length then
            some (joinSep [',', ' '] ((parts.drop 1).dropLast)).asString
          else none) = some v := h
        split at h'
        · rename_i hlen3
          injection h' with h1
          subst h1
          have hmidlen : 0 < ((parts.drop 1).dropLast).length := by
            rw [List.length_dropLast, List.length_drop]
            omega
          cases hm : (parts.drop 1).dropLast with
          | nil => rw [hm] at hmidlen; simp at hmidlen
          | cons m t =>
            cases t with
            | nil =>
              refine ⟨m, [],
                mem_mid_subset (by rw [hm]; exact List.mem_cons_self m []), ?_⟩
              rw [toList_asString]
              simp [joinSep]
            | cons t1 t2 =>
              refine ⟨m, [',', ' '] ++ joinSep [',', ' '] (t1 :: t2),
                mem_mid_subset (by rw [hm]; exact List.mem_cons_self m (t1 :: t2)), ?_⟩
              rw [toList_asString]
              simp [joinSep]
        · exact absurd h' (by simp)
      · injection h with h1
        subst h1
        exact ⟨last, [], mem_of_getLast_eq hlast, by rw [toList_asString, List.append_nil]⟩
    · exact absurd h (by simp)
  · exact absurd h (by simp)

/-- A zip-shaped value contains a non-whitespace character. -/
lemma zipExact_any_nonws (cs : List Char) (h : zipExact cs = true) :
    cs.any (fun c => !c.isWhitespace) = true := by
  have hall := zipExact_all_nonws cs h
  cases cs with
  | nil => exact absurd h (by simp [zipExact])
  | cons a t =>
    simp only [List.all_cons, Bool.and_eq_true] at hall
    simp [hall.1]

/-- Every non-null value produced by the tier-5 address fallback contains a
non-whitespace character. -/
lemma find_from_5_some_nonws (d : FieldDict) (ph v : String)
    (h : find_from_5 d ph = some v) :
    v.toList.any (fun c => !c.isWhitespace) = true := by
  unfold find_from_5 at h
  split at h
  · exact absurd h (by simp)
  · rename_i fa
    split at h
    · split at h
      · -- street dispatch
        rw [Option.map_eq_some'] at h
        obtain ⟨p, hp, rfl⟩ := h
        rw [toList_asString]
        exact part_any_nonws (mem_of_head_eq hp)
      · split at h
        · -- city dispatch
          obtain ⟨p, rest2, hmem, hv⟩ := acsz_city_spec _ v h
          rw [hv, List.any_append, part_any_nonws hmem]
          rfl
        · split at h
          · -- state dispatch
            obtain ⟨a, b, rfl, ha, hb⟩ := acsz_state_spec _ v h
            rw [toList_asString]
            simp [alpha_not_ws a ha]
          · split at h
            · -- zip dispatch
              exact zipExact_any_nonws _ (acsz_zip_spec _ v h)
            · exact absurd h (by simp)
    · exact absurd h (by simp)

/-- Cascade analysis: a resolved value was either accepted by the validator
(tiers 1-4) or produced by the tier-5 address fallback. -/
lemma find_from_4_some (d : FieldDict) (ph v : String) (h : find_from_4 d ph = some v) :
    validate_candidate_for_placeholder ph (some v) = true ∨ find_from_5 d ph = some v := by
  unfold find_from_4 at h
  split at h
  · rename_i kv heq
    split at h
    · rename_i h1
      injection h with h2
      subst h2
      exact Or.inl (band_true h1).2
    · split at h
      · rename_i h2
        injection h with h3
        subst h3
        exact Or.inl h2
      · exact Or.inr h
  · exact Or.inr h

/-- Cascade analysis for tier 3. -/
lemma find_from_3_some (d : FieldDict) (ph v : String) (h : find_from_3 d ph = some v) :
    validate_candidate_for_placeholder ph (some v) = true ∨ find_from_5 d ph = some v := by
  unfold find_from_3 at h
  split at h
  · rename_i kv heq
    have hp := List.find?_some heq
    simp only [h] at hp
    exact Or.inl (band_true hp).2
  · exact find_from_4_some d ph v h

/-- Cascade analysis for tier 2. -/
lemma find_from_2_some (d : FieldDict) (ph v : String) (h : find_from_2 d ph = some v) :
    validate_candidate_for_placeholder ph (some v) = true ∨ find_from_5 d ph = some v := by
  unfold find_from_2 at h
  split at h
  · rename_i kv heq
    have hp := List.find?_some heq
    simp only [h] at hp
    exact Or.inl (band_true hp).2
  · exact find_from_3_some d ph v h

/-- Cascade analysis for the full resolver. -/
lemma find_some_validate_or_t5 (d : FieldDict) (ph v : String)
    (h : find_value_for_placeholder d ph = some v) :
    validate_candidate_for_placeholder ph (some v) = true ∨ find_from_5 d ph = some v := by
  unfold find_value_for_placeholder at h
  split at h
  · rename_i cand heq
    split at h
    · rename_i hv
      rw [h] at hv
      exact Or.inl hv
    · exact find_from_2_some d ph v h
  · exact find_from_2_some d ph v h

/-- Stripping a whitespace-free string changes nothing (string level). -/
lemma stripS_eq_self_of_all (v : String)
    (h : v.toList.all (fun c => !c.isWhitespace) = true) : stripS v = v := by
  unfold stripS
  rw [stripChars_eq_self_of_all _ h]
  rfl

/-- Splitting a list by resolvedness of its placeholders preserves length. -/
lemma filter_some_none_length (d : FieldDict) :
    ∀ phs : List String,
      (phs.filter (fun ph => (find_value_for_placeholder d ph).isSome)).length
        + (phs.filter (fun ph => (find_value_for_placeholder d ph).isNone)).length
        = phs.length
  | [] => rfl
  | a :: t => by
    rw [List.filter_cons, List.filter_cons]
    cases hf : find_value_for_placeholder d a with
    | some w =>
      simp only [hf, Option.isSome_some, Option.isNone_some, if_true, if_false]
      simp only [List.length_cons]
      rw [Nat.succ_add]
      exact congrArg Nat.succ (filter_some_none_length d t)
    | none =>
      simp only [hf, Option.isSome_none, Option.isNone_none, if_true, if_false]
      simp only [List.length_cons]
      rw [Nat.add_succ]
      exact congrArg Nat.succ (filter_some_none_length d t)

/-- Membership in the `mapping_used` dictionary characterizes resolution. -/
lemma mapping_used_mem (d : FieldDict) (phs : List String) (ph w : String) :
    (ph, w) ∈ mapping_used d phs ↔
      ph ∈ phs ∧ find_value_for_placeholder d ph = some w := by
  unfold mapping_used
  rw [List.mem_filterMap]
  constructor
  · rintro ⟨a, ha, hf⟩
    rw [Option.map_eq_some'] at hf
    obtain ⟨v, hv, heq⟩ := hf
    rw [Prod.mk.injEq] at heq
    obtain ⟨rfl, rfl⟩ := heq
    exact ⟨ha, hv⟩
  · rintro ⟨hmem, hf⟩
    exact ⟨ph, hmem, by rw [hf]; rfl⟩

/-- The membership test against `mapping_used` keys computes resolvedness. -/
lemma mapping_used_any_eq (d : FieldDict) (phs : List String) (ph : String)
    (hmem : ph ∈ phs) :
    ((mapping_used d phs).any (fun kv => kv.1 == ph))
      = (find_value_for_placeholder d ph).isSome := by
  cases hf : find_value_for_placeholder d ph with
  | some w =>
    have : (ph, w) ∈ mapping_used d phs := (mapping_used_mem d phs ph w).mpr ⟨hmem, hf⟩
    simp only [Option.isSome_some]
    rw [List.any_eq_true]
    exact ⟨(ph, w), this, by simp⟩
  | none =>
    simp only [Option.isSome_none]
    rw [← Bool.not_eq_true, List.any_eq_true]
    rintro ⟨kv, hkv, hbeq⟩
    rw [beq_iff_eq] at hbeq
    obtain ⟨k, w⟩ := kv
    simp only at hbeq
    subst hbeq
    have := (mapping_used_mem d phs k w).mp hkv
    rw [hf] at this
    exact Option.noConfusion this.2

/-- `mapping_used` has one entry per resolvable placeholder. -/
lemma mapping_used_length (d : FieldDict) (phs : List String) :
    (mapping_used d phs).length
      = (phs.filter (fun ph => (find_value_for_placeholder d ph).isSome)).length := by
  induction phs with
  | nil => rfl
  | cons a t ih =>
    unfold mapping_used at ih ⊢
    rw [List.filterMap_cons, List.filter_cons]
    cases hf : find_value_for_placeholder d a with
    | some w => simp [hf, ih]
    | none => simp [hf, ih]

/-! ### Claim theorems -/

/-- C1: the code violates the claim.  For the field dictionary
`{"insured_name": "John Smith"}` and the placeholder `INSURED_H_CITY`, the
tier-4 blacklist test fires (identity field, address placeholder), but the
duplicated lines 135-137 of `data_mapper.py` sit outside the `else` branch
and return the blacklisted candidate anyway, so resolution yields
`"John Smith"` instead of falling through: the blacklist hit is established
by the second conjunct and the resolution result by the first. -/
theorem c1_blacklist_leak_eval :
    find_value_for_placeholder [("insured_name", some "John Smith")] "INSURED_H_CITY"
      = some "John Smith" ∧
    blacklist_hit "insured_name" "INSURED_H_CITY" = true := by
  constructor <;> rfl

/-- C2 counterexample: with the field dictionary
`{"risk_address": "123 Main St, Springfield, IL 62704"}` the bare placeholders
`STREET`, `CITY`, `STATE` and `ZIP` all resolve to null, not to the
decomposed address parts the claim promises. -/
theorem c2_bare_placeholders_unresolved :
    find_value_for_placeholder
        [("risk_address", some "123 Main St, Springfield, IL 62704")] "STREET" = none ∧
    find_value_for_placeholder
        [("risk_address", some "123 Main St, Springfield, IL 62704")] "CITY" = none ∧
    find_value_for_placeholder
        [("risk_address", some "123 Main St, Springfield, IL 62704")] "STATE" = none ∧
    find_value_for_placeholder
        [("risk_address", some "123 Main St, Springfield, IL 62704")] "ZIP" = none := by
  refine ⟨?_, ?_, ?_, ?_⟩ <;> rfl

/-- C2 amended: the structured-field decomposition only triggers for
placeholders whose lowercased name contains `street`, `ins`, `insured_h` or
`ins_h`, and the street sub-part is only dispatched for names containing
`ins_h_street`/`insured_h_street`; hence the `INSURED_H_*` placeholders
decompose `risk_address` into street `123 Main St`, city `Springfield`,
state `IL` and zip `62704`, while the bare `STREET`, `CITY`, `STATE`, `ZIP`
placeholders resolve to null. -/
theorem c2_address_decomposition_insured_h :
    find_value_for_placeholder
        [("risk_address", some "123 Main St, Springfield, IL 62704")] "INSURED_H_STREET"
      = some "123 Main St" ∧
    find_value_for_placeholder
        [("risk_address", some "123 Main St, Springfield, IL 62704")] "INSURED_H_CITY"
      = some "Springfield" ∧
    find_value_for_placeholder
        [("risk_address", some "123 Main St, Springfield, IL 62704")] "INSURED_H_STATE"
      = some "IL" ∧
    find_value_for_placeholder
        [("risk_address", some "123 Main St, Springfield, IL 62704")] "INSURED_H_ZIP"
      = some "62704" ∧
    find_value_for_placeholder
        [("risk_address", some "123 Main St, Springfield, IL 62704")] "STREET" = none ∧
    find_value_for_placeholder
        [("risk_address", some "123 Main St, Springfield, IL 62704")] "CITY" = none ∧
    find_value_for_placeholder
        [("risk_address", some "123 Main St, Springfield, IL 62704")] "STATE" = none ∧
    find_value_for_placeholder
        [("risk_address", some "123 Main St, Springfield, IL 62704")] "ZIP" = none := by
  refine ⟨?_, ?_, ?_, ?_, ?_, ?_, ?_, ?_⟩ <;> rfl

/-- C4 counterexample: the placeholder `INS_CITY_ZIP` contains `zip`, yet with
only a full `risk_address` field available the tier-5 fallback dispatches on
`city` before `zip` and returns `Springfield`, which fails the zip regex. -/
theorem c4_zip_placeholder_gets_city :
    substrB "zip" (pyLower "INS_CITY_ZIP") = true ∧
    find_value_for_placeholder
        [("risk_address", some "123 Main St, Springfield, IL 62704")] "INS_CITY_ZIP"
      = some "Springfield" ∧
    zipRe "Springfield" = false := by
  refine ⟨?_, ?_, ?_⟩ <;> rfl

/-- C5 counterexample: filling the one-run paragraph `[INSURED_NAME]`
(bold, 12pt) with `"Jane Doe"` does not leave a single run: the source only
empties the pre-existing run's text and appends the new run, so the rebuilt
paragraph holds two runs. -/
theorem c5_two_runs_not_one :
    ((replace_text_in_paragraph
        { runs := [{ text := "[INSURED_NAME]", size := some 12, bold := some true }] }
        [("INSURED_NAME", "Jane Doe")]).1.runs.length = 2) := by
  rfl

/-- C5 amended (concrete part): the fill empties the pre-existing run and
appends one new run carrying the substituted text with the first run's size
and bold copied, so the paragraph's runs become the emptied original followed
by a `"Jane Doe"`/bold/12pt run, and the paragraph's concatenated text is
exactly `"Jane Doe"`. -/
theorem c5_formatting_preserved :
    (replace_text_in_paragraph
        { runs := [{ text := "[INSURED_NAME]", size := some 12, bold := some true }] }
        [("INSURED_NAME", "Jane Doe")]).1
      = { runs := [ { text := "", size := some 12, bold := some true }
                  , { text := "Jane Doe", size := some 12, bold := some true } ] } ∧
    (replace_text_in_paragraph
        { runs := [{ text := "[INSURED_NAME]", size := some 12, bold := some true }] }
        [("INSURED_NAME", "Jane Doe")]).1.text = "Jane Doe" ∧
    (replace_text_in_paragraph
        { runs := [{ text := "[INSURED_NAME]", size := some 12, bold := some true }] }
        [("INSURED_NAME", "Jane Doe")]).2 = true := by
  refine ⟨?_, ?_, ?_⟩ <;> rfl

/-- C6 counterexample: the mapping report carries no source-field component.
Two field dictionaries in which the value of `INSURED_NAME` is supplied by
different source fields (`insured_name` via the tier-1 alias table versus
`insuredname` via tier-2 normalized match) produce literally identical
reports, so the report cannot contain the name of the supplying field. -/
theorem c6_report_lacks_source_field :
    get_mapping_report [("insured_name", some "John")] ["INSURED_NAME"]
      = get_mapping_report [("insuredname", some "John")] ["INSURED_NAME"] ∧
    ("insured_name" : String) ≠ "insuredname" := by
  exact ⟨rfl, by decide⟩

/-- C3: the mapping produced by `map_data` is total — its keys are exactly the
template placeholders (in iteration order, hence as a key set), and every
placeholder whose resolution returned null appears with the empty string. -/
theorem c3_map_data_total (d : FieldDict) (phs : List String) :
    (map_data d phs).map Prod.fst = phs ∧
    (∀ ph, ph ∈ phs → find_value_for_placeholder d ph = none →
      (ph, "") ∈ map_data d phs) := by
  constructor
  · simp [map_data, List.map_map, Function.comp_def]
  · intro ph hmem hnone
    refine List.mem_map.mpr ⟨ph, hmem, ?_⟩
    rw [hnone]

/-- C3 witness: a placeholder unresolved against the empty dictionary still
appears, mapped to the empty string. -/
theorem c3_map_data_total_witness :
    ("FOO", "") ∈ map_data [] ["FOO"] :=
  (c3_map_data_total [] ["FOO"]).2 "FOO" (by simp) rfl

/-- C7: `fill_template` operates on a structural copy: the handler's stored
document is returned unchanged (the deepcopy of the source is a value copy in
this embedding), the filled copy preserves the number and order of paragraph
blocks and the full shape of every table, and each paragraph of the copy is
either untouched or consists of its original runs in order (texts emptied)
followed by appended runs. -/
theorem c7_fill_nonmutating (h : DocxTemplateHandler) (repl : List (String × String)) :
    (h.fillTemplateM repl).2 = h ∧
    (h.fillTemplateM repl).1 = fill_template h.document repl ∧
    (fill_template h.document repl).paragraphs.length = h.document.paragraphs.length ∧
    (fill_template h.document repl).tables.map tableShape
      = h.document.tables.map tableShape ∧
    (∀ p : Paragraph, (replace_text_in_paragraph p repl).1 = p ∨
      ∃ tail, (replace_text_in_paragraph p repl).1.runs = p.runs.map clearRun ++ tail) := by
  refine ⟨rfl, rfl, ?_, ?_, ?_⟩
  · simp [fill_template]
  · simp [fill_template, tableShape, List.map_map, Function.comp_def]
  · intro p
    exact replace_go_structure p repl (p, false) (Or.inl rfl)

/-- C8: resolution is total — it yields a value or null, never an error — and
a tier-1 candidate that fails type validation falls through silently to the
rest of the cascade. -/
theorem c8_resolution_total_fallthrough (d : FieldDict) (ph : String) (cand : Option String)
    (ha : alias_candidate d ph = some cand)
    (hv : validate_candidate_for_placeholder ph cand = false) :
    find_value_for_placeholder d ph = find_from_2 d ph ∧
    (find_value_for_placeholder d ph = none ∨
      ∃ v, find_value_for_placeholder d ph = some v) := by
  have hmain : find_value_for_placeholder d ph = find_from_2 d ph := by
    unfold find_value_for_placeholder
    rw [ha]
    show (if validate_candidate_for_placeholder ph cand = true then cand
          else find_from_2 d ph) = find_from_2 d ph
    rw [hv]
    simp
  refine ⟨hmain, ?_⟩
  cases hfind : find_value_for_placeholder d ph with
  | none => exact Or.inl rfl
  | some v => exact Or.inr ⟨v, rfl⟩

/-- C8 witness: the alias candidate `"12345"` for `INSURED_NAME` fails the
name validator (no letters) and resolution falls through to the later tiers,
ending in null. -/
theorem c8_resolution_total_fallthrough_witness :
    find_value_for_placeholder [("insured_name", some "12345")] "INSURED_NAME"
        = find_from_2 [("insured_name", some "12345")] "INSURED_NAME" ∧
    (find_value_for_placeholder [("insured_name", some "12345")] "INSURED_NAME" = none ∨
      ∃ v, find_value_for_placeholder [("insured_name", some "12345")] "INSURED_NAME"
        = some v) :=
  c8_resolution_total_fallthrough [("insured_name", some "12345")] "INSURED_NAME"
    (some "12345") rfl rfl

/-- C9: the validator applies exactly one rule per candidate, selected from
the placeholder's lowercased name by the fixed precedence zip, city, state,
street/st, date, policy/claim, insured/name, default: on any non-empty
stripped candidate the source's if-chain equals the selected rule applied to
the stripped candidate, and a name containing `zip` always selects the zip
rule no matter which other keywords it contains. -/
theorem c9_validator_single_rule (ph c : String) (h : stripS c ≠ "") :
    validate_candidate_for_placeholder ph (some c)
      = applyValRule (valRuleFor ph) (stripS c) ∧
    (substrB "zip" (pyLower ph) = true → valRuleFor ph = ValRule.zipR) := by
  have hb : (stripS c == "") = false := beq_eq_false_iff_ne.mpr h
  constructor
  · simp only [validate_candidate_for_placeholder, valRuleFor]
    rw [hb]
    cases hz : substrB "zip" (pyLower ph)
    · cases hc : substrB "city" (pyLower ph)
      · cases hs : substrB "state" (pyLower ph)
        · cases hst : substrB "street" (pyLower ph) || substrB "st" (pyLower ph)
          · cases hd : substrB "date" (pyLower ph)
            · cases hp : substrB "policy" (pyLower ph) || substrB "claim" (pyLower ph)
              · cases hn : substrB "insured" (pyLower ph) || substrB "name" (pyLower ph)
                · simp [hz, hc, hs, hst, hd, hp, hn, applyValRule]
                · simp [hz, hc, hs, hst, hd, hp, hn, applyValRule]
              · simp [hz, hc, hs, hst, hd, hp, applyValRule]
            · simp [hz, hc, hs, hst, hd, applyValRule]
          · simp [hz, hc, hs, hst, applyValRule]
        · simp [hz, hc, hs, applyValRule]
      · simp [hz, hc, applyValRule]
    · simp [hz, applyValRule]
  · intro hz
    unfold valRuleFor
    rw [hz]
    simp

/-- C9 witness: `ZIP_CITY` contains both `zip` and `city`; the zip rule alone
governs, and the chain applied to the valid zip `62704` evaluates to it. -/
theorem c9_validator_single_rule_witness :
    validate_candidate_for_placeholder "ZIP_CITY" (some "62704")
      = applyValRule (valRuleFor "ZIP_CITY") (stripS "62704") ∧
    (substrB "zip" (pyLower "ZIP_CITY") = true → valRuleFor "ZIP_CITY" = ValRule.zipR) :=
  c9_validator_single_rule "ZIP_CITY" "62704" (by decide)

/-- C10: every non-null value returned by resolution contains at least one
non-whitespace character — tiers 1-4 only return validator-accepted candidates
(which strip to something non-empty) and every tier-5 address part is built
from stripped non-empty segments or regex captures. -/
theorem c10_resolved_values_nonblank (d : FieldDict) (ph v : String)
    (h : find_value_for_placeholder d ph = some v) :
    v.toList.any (fun c => !c.isWhitespace) = true := by
  rcases find_some_validate_or_t5 d ph v h with hv | h5
  · exact validate_some_any_nonws ph v hv
  · exact find_from_5_some_nonws d ph v h5

/-- C10 witness: the resolved zip `62704` contains a non-whitespace
character. -/
theorem c10_resolved_values_nonblank_witness :
    ("62704" : String).toList.any (fun c => !c.isWhitespace) = true :=
  c10_resolved_values_nonblank [("zip", some "62704")] "ZIP" "62704" rfl

/-- C4 amended: candidates accepted at tiers 1-4 for a zip-flavored
placeholder always pass the zip regex after whitespace stripping, and tier 5's
zip dispatch returns a regex-shaped zip; but tier 5 dispatches on
street/city/state keys first, so the guarantee holds exactly for placeholders
whose lowercased name contains `zip` and none of `city`, `state`,
`ins_h_street`, `insured_h_street`. -/
theorem c4_amended_zip_gating (d : FieldDict) (ph v : String)
    (hz : substrB "zip" (pyLower ph) = true)
    (hc : substrB "city" (pyLower ph) = false)
    (hs : substrB "state" (pyLower ph) = false)
    (h1 : substrB "ins_h_street" (pyLower ph) = false)
    (h2 : substrB "insured_h_street" (pyLower ph) = false)
    (h : find_value_for_placeholder d ph = some v) :
    zipRe (stripS v) = true := by
  rcases find_some_validate_or_t5 d ph v h with hv | h5
  · exact validate_zip ph v hz hv
  · unfold find_from_5 at h5
    split at h5
    · exact absurd h5 (by simp)
    · split at h5
      · split at h5
        · rename_i hcond
          rw [h1, h2] at hcond
          simp at hcond
        · split at h5
          · rename_i hcond
            rw [hc] at hcond
            simp at hcond
          · split at h5
            · rename_i hcond
              rw [hs] at hcond
              simp at hcond
            · split at h5
              · have hzip := acsz_zip_spec _ v h5
                have hall := zipExact_all_nonws _ hzip
                rw [stripS_eq_self_of_all v hall]
                exact hzip
              · exact absurd h5 (by simp)
      · exact absurd h5 (by simp)

/-- C4 amended witness: the placeholder `ZIP` resolves to `62704`, which
passes the zip regex after stripping. -/
theorem c4_amended_zip_gating_witness : zipRe (stripS "62704") = true :=
  c4_amended_zip_gating [("zip", some "62704")] "ZIP" "62704"
    (by decide) (by decide) (by decide) (by decide) (by decide) rfl

/-- C6 amended: the mapping report contains the total placeholder count, the
resolved count (equivalently: resolved and unresolved counts sum to the
total), the unresolved placeholder names, and the (placeholder, value) pairs
of the resolved placeholders — but no source-field component. -/
theorem c6_amended_report_contents (d : FieldDict) (phs : List String) :
    (get_mapping_report d phs).totalPlaceholders = phs.length ∧
    (get_mapping_report d phs).mappedCount
        + (get_mapping_report d phs).unmapped.length = phs.length ∧
    (get_mapping_report d phs).unmapped
      = phs.filter (fun ph => (find_value_for_placeholder d ph).isNone) ∧
    (∀ ph w, (ph, w) ∈ (get_mapping_report d phs).mappingUsed ↔
      ph ∈ phs ∧ find_value_for_placeholder d ph = some w) := by
  have hunmapped : (get_mapping_report d phs).unmapped
      = phs.filter (fun ph => (find_value_for_placeholder d ph).isNone) := by
    unfold get_mapping_report
    refine List.filter_congr ?_
    intro ph hmem
    rw [mapping_used_any_eq d phs ph hmem]
    cases find_value_for_placeholder d ph <;> rfl
  refine ⟨rfl, ?_, hunmapped, ?_⟩
  · show (mapping_used d phs).length
        + (get_mapping_report d phs).unmapped.length = phs.length
    rw [hunmapped, mapping_used_length]
    exact filter_some_none_length d phs
  · intro ph w
    exact mapping_used_mem d phs ph w

end GlrPipeline
